import Mathlib

/-!
Verification of the sslchains matching and chain-reconstruction engine,
a shallow embedding of `src/chain.rs` and `src/compare.rs`.

Cryptographic primitives are modelled at the interface the engine consumes:
an openssl public key is an abstract identity together with an optional RSA
modulus (`none` models a key whose `.rsa()` conversion fails, i.e. a non-RSA
key), and signature verification is modelled by listing, for each
certificate, the identities of the public keys that verify its signature.
File input is modelled by bundling each path with the (deterministic)
outcome of reading and trial-parsing it, so one scan of the path list is one
traversal of the bundled entries.

Panics (`unwrap` on a failed RSA conversion) and potential non-termination of
the recursive signer resolution are made explicit: every phase returns in an
abort monad, and the recursion is indexed by fuel, `fuelOut` marking an
execution whose recursion depth exceeds every finite bound.
-/

namespace SSLChains

/-- Models an openssl public key (`PKey<Public>`): `rsaN` is the RSA modulus
exposed by the `.rsa()` conversion (`none` for a non-RSA key, whose
conversion errors), `kid` an abstract identity consumed by signature
verification. -/
structure PubKey where
  rsaN : Option Nat
  kid : Nat
deriving DecidableEq

/-- Models `Rsa<Public>` as obtained from a successful `.rsa()` conversion:
just the public modulus, the only component the engine reads. -/
structure RsaPub where
  n : Nat
deriving DecidableEq

/-- Models `Rsa<Private>`: the engine only ever reads the public modulus. -/
structure RsaPriv where
  n : Nat
deriving DecidableEq

/-- Models an openssl `X509` certificate at the interface used by the
engine: its public key, its signature bytes, and the verification oracle
(`verifiedBy` lists the identities of the public keys under which
`X509::verify` returns true). -/
structure X509 where
  pubkey : PubKey
  sig : List Nat
  verifiedBy : List Nat
deriving DecidableEq

/-- Models an openssl `X509Req` certificate signing request: the engine only
reads its public key. -/
structure X509Req where
  pubkey : PubKey
deriving DecidableEq

/-- Models `X509::verify(&signing_key)`: true when the signing key's
identity is among the keys that verify this certificate's signature. -/
def verify (certificate : X509) (signing_key : PubKey) : Bool :=
  certificate.verifiedBy.contains signing_key.kid

/-- Models `CertificateFile::to_rsa` / the `.rsa()` conversion on a
certificate's public key: fails (`none`) for a non-RSA key. -/
def X509.to_rsa (c : X509) : Option RsaPub :=
  c.pubkey.rsaN.map RsaPub.mk

/-- Models `CertificateRequestFile::to_rsa`: fails for a non-RSA key. -/
def X509Req.to_rsa (r : X509Req) : Option RsaPub :=
  r.pubkey.rsaN.map RsaPub.mk

/-- Outcome of reading and trial-parsing one file, per the three parsers
`str_to_private_key`, `str_to_x509req`, `str_to_x509` of `chain.rs`. -/
structure FileContent where
  asKey : Option RsaPriv
  asReq : Option X509Req
  asCert : Option X509
deriving DecidableEq

/-- One input path bundled with the outcome of `get_file_contents`
(`none` models an I/O error); the file system is fixed for the run, so
every phase that re-reads the path sees the same outcome. -/
structure FileEntry where
  path : String
  read : Option FileContent
deriving DecidableEq

/-- Embeds `compare::private_to_public` of `compare.rs`. -/
def private_to_public (rsa_private : RsaPriv) (rsa_public : RsaPub) :
    Except String Unit :=
  if rsa_private.n ≠ rsa_public.n then
    .error "Key file mismatch"
  else
    .ok ()

/-- Embeds `compare::certificate_to_signing_certificate` of `compare.rs`. -/
def certificate_to_signing_certificate (certificate signing_certificate : X509) :
    Except String Unit :=
  if ! verify certificate signing_certificate.pubkey then
    .error "Certificate not signed by given signing certificate"
  else
    .ok ()

/-- Embeds `PrivateKeyFile` of `chain.rs`. -/
structure PrivateKeyFile where
  path : String
  rsa : RsaPriv
deriving DecidableEq

/-- Embeds `CertificateRequestFile` of `chain.rs`. -/
structure CertificateRequestFile where
  path : String
  request : X509Req
deriving DecidableEq

/-- Embeds `CertificateFile` of `chain.rs`: a certificate record with its
optional boxed signing certificate and self-signed flag. -/
inductive CertificateFile where
  | mk (path : String) (certificate : X509)
       (signing_certificate : Option CertificateFile) (self_signed : Bool)

/-- Projection for the `path` field of `CertificateFile`. -/
def CertificateFile.path : CertificateFile → String
  | .mk p _ _ _ => p

/-- Projection for the `certificate` field of `CertificateFile`. -/
def CertificateFile.certificate : CertificateFile → X509
  | .mk _ c _ _ => c

/-- Projection for the `signing_certificate` field of `CertificateFile`. -/
def CertificateFile.signing_certificate : CertificateFile → Option CertificateFile
  | .mk _ _ s _ => s

/-- Projection for the `self_signed` field of `CertificateFile`. -/
def CertificateFile.self_signed : CertificateFile → Bool
  | .mk _ _ _ b => b

/-- The assignment `certificate.signing_certificate = Some(Box::new(c))`. -/
def CertificateFile.setSigner : CertificateFile → CertificateFile → CertificateFile
  | .mk p c _ b, s => .mk p c (some s) b

/-- The assignment `certificate.self_signed = true`. -/
def CertificateFile.setSelfSigned : CertificateFile → CertificateFile
  | .mk p c s _ => .mk p c s true

/-- The `while let Some(signing_certificate)` walk inside
`CertificateFile::signing_certificate_chain`. -/
def chainLinks : CertificateFile → List CertificateFile
  | .mk _ _ none _ => []
  | .mk _ _ (some s) _ => s :: chainLinks s

/-- Embeds `CertificateFile::signing_certificate_chain` of `chain.rs`. -/
def signing_certificate_chain (c : CertificateFile) : List CertificateFile :=
  if c.self_signed then [] else chainLinks c

/-- Embeds the `Chain` struct of `chain.rs`. -/
structure Chain where
  name : Option String
  key : Option PrivateKeyFile
  request : Option CertificateRequestFile
  certificates : List CertificateFile

/-- How an execution of the engine can abort: a panic from a failed
`unwrap`, or a recursion exceeding the fuel bound (the embedding of
non-termination). -/
inductive Abort where
  | panicked
  | fuelOut
deriving DecidableEq

/-- Result of running a phase of the engine. -/
abbrev Res (α : Type) := Except Abort α

/-- Sequential effectful map, mirroring a `for` loop over mutable chains:
the first abort ends the run. -/
def mapE {α β : Type} (f : α → Res β) : List α → Res (List β)
  | [] => .ok []
  | a :: rest =>
    match f a with
    | .error e => .error e
    | .ok b =>
      match mapE f rest with
      | .error e => .error e
      | .ok bs => .ok (b :: bs)

/-- Embeds `initialize` of `chain.rs`: one fresh `Chain` per file that
parses as a private key, in path order. -/
def initChains : List FileEntry → List Chain
  | [] => []
  | f :: rest =>
    match f.read with
    | none => initChains rest
    | some contents =>
      match contents.asKey with
      | some rsa =>
          { name := none, key := some { path := f.path, rsa := rsa },
            request := none, certificates := [] } :: initChains rest
      | none => initChains rest

/-- The inner path loop of `attach_certificate_signing_requests`: first
request whose parse succeeds, whose `to_rsa` does not panic, and whose
modulus matches the chain's key is attached, then the loop breaks. -/
def requestScan (chain : Chain) : List FileEntry → Res Chain
  | [] => .ok chain
  | f :: rest =>
    match f.read with
    | none => requestScan chain rest
    | some contents =>
      match contents.asReq with
      | none => requestScan chain rest
      | some req =>
        match chain.key with
        | none => requestScan chain rest
        | some key =>
          match req.to_rsa with
          | none => .error .panicked
          | some rsa =>
            match private_to_public key.rsa rsa with
            | .ok _ => .ok { chain with request := some { path := f.path, request := req } }
            | .error _ => requestScan chain rest

/-- Embeds `attach_certificate_signing_requests` of `chain.rs`. -/
def attach_certificate_signing_requests (chains : List Chain)
    (paths : List FileEntry) : Res (List Chain) :=
  mapE (fun chain => requestScan chain paths) chains

/-- Embeds `find_certificates` of `chain.rs`: every file that parses as a
certificate, as a fresh record, in path order. -/
def find_certificates : List FileEntry → List CertificateFile
  | [] => []
  | f :: rest =>
    match f.read with
    | none => find_certificates rest
    | some contents =>
      match contents.asCert with
      | none => find_certificates rest
      | some x => CertificateFile.mk f.path x none false :: find_certificates rest

/-- The inner pool loop of `attach_certificates`: every certificate whose
`to_rsa` does not panic and whose modulus matches the chain's key is
appended, in pool order. -/
def certScan (chain : Chain) : List CertificateFile → Res Chain
  | [] => .ok chain
  | c :: rest =>
    match chain.key with
    | none => certScan chain rest
    | some key =>
      match c.certificate.to_rsa with
      | none => .error .panicked
      | some rsa =>
        match private_to_public key.rsa rsa with
        | .ok _ => certScan { chain with certificates := chain.certificates ++ [c] } rest
        | .error _ => certScan chain rest

/-- Embeds `attach_certificates` of `chain.rs`. -/
def attach_certificates (chains : List Chain) (paths : List FileEntry) :
    Res (List Chain) :=
  mapE (fun chain => certScan chain (find_certificates paths)) chains

/-- The candidate loop of `attach_signing_certificate_chain`, with the
recursive call abstracted as `resolve`.  Per the source: a verifying
candidate with identical signature bytes sets `self_signed` and returns;
a verifying candidate with different bytes is cloned into
`signing_certificate` (the clone is taken before the recursive call, so
the recursion's effects on the pool element are not reflected in the
stored clone) and the loop continues, so a later verifying candidate
overwrites the stored signer. -/
def signerScan (resolve : CertificateFile → Res CertificateFile)
    (certificate : CertificateFile) : List CertificateFile → Res CertificateFile
  | [] => .ok certificate
  | c :: rest =>
    match certificate_to_signing_certificate certificate.certificate c.certificate with
    | .error _ => signerScan resolve certificate rest
    | .ok _ =>
      if certificate.certificate.sig = c.certificate.sig then
        .ok certificate.setSelfSigned
      else
        match resolve c with
        | .error e => .error e
        | .ok _ => signerScan resolve (certificate.setSigner c) rest

/-- Embeds `attach_signing_certificate_chain` of `chain.rs`, indexed by
fuel: each recursive call re-scans `find_certificates paths` with one unit
of fuel less; exhausted fuel marks a recursion deeper than the bound. -/
def attach_signing_certificate_chain :
    Nat → CertificateFile → List FileEntry → Res CertificateFile
  | 0, _, _ => .error .fuelOut
  | fuel + 1, certificate, paths =>
    signerScan (fun c => attach_signing_certificate_chain fuel c paths)
      certificate (find_certificates paths)

/-- Embeds `attach_signing_certificates` of `chain.rs`. -/
def attach_signing_certificates (fuel : Nat) (chains : List Chain)
    (paths : List FileEntry) : Res (List Chain) :=
  mapE (fun chain =>
    match mapE (fun c => attach_signing_certificate_chain fuel c paths)
        chain.certificates with
    | .error e => .error e
    | .ok certs => .ok { chain with certificates := certs }) chains

/-- Embeds `build` of `chain.rs`: the four phases in order; the inner
`Except String` layer is the Rust `Result<Vec<Chain>, String>` return type,
whose error variant the body never constructs. -/
def build (fuel : Nat) (paths : List FileEntry) :
    Res (Except String (List Chain)) :=
  match attach_certificate_signing_requests (initChains paths) paths with
  | .error e => .error e
  | .ok chains1 =>
    match attach_certificates chains1 paths with
    | .error e => .error e
    | .ok chains2 =>
      match attach_signing_certificates fuel chains2 paths with
      | .error e => .error e
      | .ok chains3 => .ok (.ok chains3)

/-! Specification-side definitions, written from the spec's words, used to
state the claims about the scan loops. -/

/-- Spec-side: the first parseable certificate request in scan order whose
public key matches the given private key (a non-RSA request matches
nothing). -/
def firstMatchingRequest (key : PrivateKeyFile) :
    List FileEntry → Option CertificateRequestFile
  | [] => none
  | f :: rest =>
    match f.read with
    | none => firstMatchingRequest key rest
    | some contents =>
      match contents.asReq with
      | none => firstMatchingRequest key rest
      | some req =>
        match req.to_rsa with
        | none => firstMatchingRequest key rest
        | some rsa =>
          if key.rsa.n = rsa.n then some { path := f.path, request := req }
          else firstMatchingRequest key rest

/-- Spec-side: whether a pool certificate's public key matches the given
private key (a non-RSA certificate matches nothing). -/
def certMatchesKey (key : PrivateKeyFile) (c : CertificateFile) : Bool :=
  match c.certificate.to_rsa with
  | some rsa => key.rsa.n == rsa.n
  | none => false

/-- Spec-side: the last candidate in scan order whose public key verifies
the given certificate's signature, starting from a default. -/
def lastVerifying (x : X509) (acc : Option CertificateFile) :
    List CertificateFile → Option CertificateFile
  | [] => acc
  | c :: rest =>
    if verify x c.certificate.pubkey then lastVerifying x (some c) rest
    else lastVerifying x acc rest

/-- Spec-side: no candidate in the pool verifies the certificate's
signature. -/
def noVerifier (x : X509) (pool : List CertificateFile) : Prop :=
  ∀ c ∈ pool, verify x c.certificate.pubkey = false

/-- A file that is unreadable or fails all three trial parses: per the
spec it should contribute nothing to chain construction. -/
def junkFile (f : FileEntry) : Prop :=
  f.read = none ∨ f.read = some (FileContent.mk none none none)

/-- Spec-side: the issuer-resolution recursion terminates on this
certificate and path list, i.e. some finite fuel suffices. -/
def resolutionTerminates (certificate : CertificateFile)
    (paths : List FileEntry) : Prop :=
  ∃ fuel r, attach_signing_certificate_chain fuel certificate paths = .ok r

/-! Concrete artifacts for the scenario evaluations: a leaf certificate
signed by an intermediate, itself signed by a self-signed root, together
with the leaf's private key. -/

/-- Leaf certificate: RSA modulus 10 (the key's modulus), signature
verified by the intermediate's key (identity 2). -/
def leafX : X509 :=
  { pubkey := { rsaN := some 10, kid := 1 }, sig := [1], verifiedBy := [2] }

/-- Intermediate certificate: signature verified by the root's key
(identity 3). -/
def interX : X509 :=
  { pubkey := { rsaN := some 20, kid := 2 }, sig := [2], verifiedBy := [3] }

/-- Root certificate: self-signed, its signature verified by its own key
(identity 3). -/
def rootX : X509 :=
  { pubkey := { rsaN := some 30, kid := 3 }, sig := [3], verifiedBy := [3] }

/-- The leaf's private key file. -/
def fk : FileEntry :=
  { path := "k", read := some { asKey := some ⟨10⟩, asReq := none, asCert := none } }

/-- The leaf certificate file. -/
def fl : FileEntry :=
  { path := "l", read := some { asKey := none, asReq := none, asCert := some leafX } }

/-- The intermediate certificate file. -/
def fi : FileEntry :=
  { path := "i", read := some { asKey := none, asReq := none, asCert := some interX } }

/-- The root certificate file. -/
def fr : FileEntry :=
  { path := "r", read := some { asKey := none, asReq := none, asCert := some rootX } }

/-- Input path list of the three-certificate scenario. -/
def c1paths : List FileEntry := [fk, fl, fi, fr]

/-- The leaf's certificate record as actually produced by the engine on the
three-certificate scenario: the stored signing certificate is the snapshot
of the intermediate taken before the recursive call, so it carries no
signer of its own and the root never appears. -/
def leafOut : CertificateFile :=
  .mk "l" leafX (some (.mk "i" interX none false)) false

/-! Concrete artifacts refuting the claimed issuer/self-signed exclusion:
a certificate whose signature is verified both by another certificate's
key and, byte-identically, by its own key. -/

/-- Helper certificate whose key (identity 7) verifies `c2CX`. -/
def c2XX : X509 :=
  { pubkey := { rsaN := some 20, kid := 7 }, sig := [6], verifiedBy := [] }

/-- Crafted certificate: verified by identity 7 (a different certificate)
and by its own key (identity 9), the latter with identical signature
bytes. -/
def c2CX : X509 :=
  { pubkey := { rsaN := some 10, kid := 9 }, sig := [5], verifiedBy := [7, 9] }

/-- Key file for the crafted-certificate scenario. -/
def c2fk : FileEntry :=
  { path := "k2", read := some { asKey := some ⟨10⟩, asReq := none, asCert := none } }

/-- File holding the helper certificate `c2XX`. -/
def c2fx : FileEntry :=
  { path := "x", read := some { asKey := none, asReq := none, asCert := some c2XX } }

/-- File holding the crafted certificate `c2CX`. -/
def c2fc : FileEntry :=
  { path := "c", read := some { asKey := none, asReq := none, asCert := some c2CX } }

/-- Path list of the crafted-certificate scenario: the helper certificate
precedes the crafted one in scan order. -/
def c2paths : List FileEntry := [c2fk, c2fx, c2fc]

/-- The crafted certificate's record as produced by the engine: self-signed
AND carrying a signer. -/
def c2rec : CertificateFile :=
  .mk "c" c2CX (some (.mk "x" c2XX none false)) true

/-! Concrete artifacts refuting first-match-wins in signer resolution: the
issuer certificate appears at two paths; the later copy ends up attached. -/

/-- Issuer certificate of the duplicate-issuer scenario (identity 7). -/
def c3XX : X509 :=
  { pubkey := { rsaN := some 20, kid := 7 }, sig := [6], verifiedBy := [] }

/-- Certificate signed by `c3XX`. -/
def c3CX : X509 :=
  { pubkey := { rsaN := some 10, kid := 9 }, sig := [5], verifiedBy := [7] }

/-- Key file of the duplicate-issuer scenario. -/
def c3fk : FileEntry :=
  { path := "k3", read := some { asKey := some ⟨10⟩, asReq := none, asCert := none } }

/-- First copy of the issuer certificate. -/
def c3fx1 : FileEntry :=
  { path := "x1", read := some { asKey := none, asReq := none, asCert := some c3XX } }

/-- Second copy of the issuer certificate. -/
def c3fx2 : FileEntry :=
  { path := "x2", read := some { asKey := none, asReq := none, asCert := some c3XX } }

/-- File holding the signed certificate `c3CX`. -/
def c3fc : FileEntry :=
  { path := "c3", read := some { asKey := none, asReq := none, asCert := some c3CX } }

/-- Path list of the duplicate-issuer scenario: copy "x1" precedes copy
"x2". -/
def c3paths : List FileEntry := [c3fk, c3fx1, c3fx2, c3fc]

/-! Concrete artifacts for the non-termination scenario: two distinct
certificates that mutually verify each other's signatures. -/

/-- Certificate verified by `c4BX`'s key (identity 2). -/
def c4AX : X509 :=
  { pubkey := { rsaN := some 40, kid := 1 }, sig := [1], verifiedBy := [2] }

/-- Certificate verified by `c4AX`'s key (identity 1). -/
def c4BX : X509 :=
  { pubkey := { rsaN := some 41, kid := 2 }, sig := [2], verifiedBy := [1] }

/-- File holding `c4AX`. -/
def c4fa : FileEntry :=
  { path := "a", read := some { asKey := none, asReq := none, asCert := some c4AX } }

/-- File holding `c4BX`. -/
def c4fb : FileEntry :=
  { path := "b", read := some { asKey := none, asReq := none, asCert := some c4BX } }

/-- Path list of the mutual-verification scenario. -/
def c4paths : List FileEntry := [c4fa, c4fb]

/-- Fresh record for `c4AX`, as produced by `find_certificates`. -/
def c4Arec : CertificateFile := .mk "a" c4AX none false

/-- Fresh record for `c4BX`, as produced by `find_certificates`. -/
def c4Brec : CertificateFile := .mk "b" c4BX none false

/-- A file that parses as a certificate request whose public key is not
RSA (the `.rsa()` conversion fails). -/
def c5badReq : FileEntry :=
  { path := "bad",
    read := some { asKey := none,
                   asReq := some { pubkey := { rsaN := none, kid := 5 } },
                   asCert := none } }

/-- Path list of the panic scenario: one valid private key followed by a
parseable non-RSA certificate request. -/
def c5paths : List FileEntry := [fk, c5badReq]

/-- A junk file: readable but failing all three parses. -/
def c5junk : FileEntry :=
  { path := "junk", read := some (FileContent.mk none none none) }

/-- A certificate request whose key matches modulus 10. -/
def c7reqX : X509Req := { pubkey := { rsaN := some 10, kid := 11 } }

/-- First matching request file of the first-match scenario. -/
def c7fq1 : FileEntry :=
  { path := "q1", read := some { asKey := none, asReq := some c7reqX, asCert := none } }

/-- Second matching request file of the first-match scenario. -/
def c7fq2 : FileEntry :=
  { path := "q2", read := some { asKey := none, asReq := some c7reqX, asCert := none } }

/-- Path list of the first-match request scenario. -/
def c7paths : List FileEntry := [fk, c7fq1, c7fq2]

/-- A fresh chain owning the key of file `fk`, as created by the
initialization phase. -/
def c7chain : Chain :=
  { name := none, key := some { path := "k", rsa := ⟨10⟩ }, request := none,
    certificates := [] }

/-- A certificate whose key does not match modulus 10. -/
def c8otherX : X509 :=
  { pubkey := { rsaN := some 99, kid := 12 }, sig := [9], verifiedBy := [] }

/-- File holding `c8otherX`. -/
def c8fo : FileEntry :=
  { path := "o", read := some { asKey := none, asReq := none, asCert := some c8otherX } }

/-- A second file holding the leaf certificate, at path "l2". -/
def c8fl2 : FileEntry :=
  { path := "l2", read := some { asKey := none, asReq := none, asCert := some leafX } }

/-- Path list of the attach-certificates scenario: two certificates match
the key (paths "l" and "l2"), one does not. -/
def c8paths : List FileEntry := [fk, fl, c8fo, c8fl2]

/-- The chain list produced by the engine on the three-certificate
scenario. -/
def c1chains : List Chain :=
  [{ name := none, key := some { path := "k", rsa := ⟨10⟩ },
     request := none, certificates := [leafOut] }]

/-- The chain produced by the request scan on the first-match scenario:
the request found at path "q1" is attached. -/
def c7out : Chain :=
  { name := none, key := some { path := "k", rsa := ⟨10⟩ },
    request := some { path := "q1", request := c7reqX }, certificates := [] }

/-- The chain produced by the certificate scan on the attach-certificates
scenario: both matching certificates, in path order. -/
def c8out : Chain :=
  { name := none, key := some { path := "k", rsa := ⟨10⟩ },
    request := none,
    certificates := [.mk "l" leafX none false, .mk "l2" leafX none false] }

/-! Basic lemmas about the record updates and the comparison helpers. -/

/-- Setting the self-signed flag keeps the path. -/
@[simp] theorem setSelfSigned_path (c : CertificateFile) :
    c.setSelfSigned.path = c.path := by
  cases c; rfl

/-- Setting the self-signed flag keeps the certificate. -/
@[simp] theorem setSelfSigned_certificate (c : CertificateFile) :
    c.setSelfSigned.certificate = c.certificate := by
  cases c; rfl

/-- Setting the self-signed flag keeps the stored signer. -/
@[simp] theorem setSelfSigned_signing (c : CertificateFile) :
    c.setSelfSigned.signing_certificate = c.signing_certificate := by
  cases c; rfl

/-- Setting the self-signed flag sets the flag. -/
@[simp] theorem setSelfSigned_flag (c : CertificateFile) :
    c.setSelfSigned.self_signed = true := by
  cases c; rfl

/-- Storing a signer keeps the path. -/
@[simp] theorem setSigner_path (c s : CertificateFile) :
    (c.setSigner s).path = c.path := by
  cases c; rfl

/-- Storing a signer keeps the certificate. -/
@[simp] theorem setSigner_certificate (c s : CertificateFile) :
    (c.setSigner s).certificate = c.certificate := by
  cases c; rfl

/-- Storing a signer stores that signer. -/
@[simp] theorem setSigner_signing (c s : CertificateFile) :
    (c.setSigner s).signing_certificate = some s := by
  cases c; rfl

/-- Storing a signer keeps the self-signed flag. -/
@[simp] theorem setSigner_flag (c s : CertificateFile) :
    (c.setSigner s).self_signed = c.self_signed := by
  cases c; rfl

/-- The key match test succeeds exactly on equal moduli. -/
theorem private_to_public_ok_iff (kp : RsaPriv) (kq : RsaPub) :
    private_to_public kp kq = .ok () ↔ kp.n = kq.n := by
  unfold private_to_public
  split <;> simp_all

/-- The signature comparison succeeds exactly when verification does. -/
theorem cts_ok_iff (a b : X509) :
    certificate_to_signing_certificate a b = .ok () ↔ verify a b.pubkey = true := by
  unfold certificate_to_signing_certificate
  cases h : verify a b.pubkey <;> simp [h]

/-! The characterization of one signer-resolution scan. -/

/-- All observable facts about a completed candidate scan: it keeps the
path and certificate, the self-signed flag is monotone, a run ending
not-self-signed stores exactly the last verifying candidate, and a run
ending without a stored signer either is self-signed or saw no verifying
candidate at all. -/
theorem signerScan_spec (resolve : CertificateFile → Res CertificateFile)
    (cands : List CertificateFile) :
    ∀ (cert r : CertificateFile), signerScan resolve cert cands = .ok r →
      r.path = cert.path ∧ r.certificate = cert.certificate ∧
      (cert.self_signed = true → r.self_signed = true) ∧
      (r.self_signed = false →
        r.signing_certificate =
          lastVerifying cert.certificate cert.signing_certificate cands) ∧
      (r.signing_certificate = none →
        r.self_signed = true ∨
          (cert.signing_certificate = none ∧
            noVerifier cert.certificate cands)) := by
  induction cands with
  | nil =>
    intro cert r h
    simp only [signerScan] at h
    cases h
    refine ⟨rfl, rfl, fun hs => hs, fun _ => rfl, fun hn => ?_⟩
    exact Or.inr ⟨hn, by simp [noVerifier]⟩
  | cons c rest ih =>
    intro cert r h
    simp only [signerScan] at h
    cases hv : verify cert.certificate c.certificate.pubkey with
    | false =>
      rw [show certificate_to_signing_certificate cert.certificate c.certificate =
            .error "Certificate not signed by given signing certificate" by
          unfold certificate_to_signing_certificate; rw [hv]; rfl] at h
      obtain ⟨h1, h2, h3, h4, h5⟩ := ih cert r h
      refine ⟨h1, h2, h3, ?_, ?_⟩
      · intro hss
        rw [h4 hss]
        simp [lastVerifying, hv]
      · intro hn
        rcases h5 hn with h5 | ⟨hsc, hnv⟩
        · exact Or.inl h5
        · refine Or.inr ⟨hsc, ?_⟩
          intro d hd
          rcases List.mem_cons.mp hd with rfl | hd
          · exact hv
          · exact hnv d hd
    | true =>
      rw [show certificate_to_signing_certificate cert.certificate c.certificate =
            .ok () by rw [cts_ok_iff]; exact hv] at h
      by_cases hsig : cert.certificate.sig = c.certificate.sig
      · rw [if_pos hsig] at h
        cases h
        refine ⟨by simp, by simp, fun _ => by simp, fun hss => ?_, fun _ => Or.inl (by simp)⟩
        · simp at hss
      · rw [if_neg hsig] at h
        cases hr : resolve c with
        | error e => rw [hr] at h; cases h
        | ok w =>
          rw [hr] at h
          obtain ⟨h1, h2, h3, h4, h5⟩ := ih (cert.setSigner c) r h
          refine ⟨by simpa using h1, by simpa using h2,
                  fun hs => h3 (by simpa using hs), ?_, ?_⟩
          · intro hss
            rw [h4 hss]
            simp [lastVerifying, hv]
          · intro hn
            rcases h5 hn with h5 | ⟨hsc, _⟩
            · exact Or.inl h5
            · simp at hsc

/-- A scan of the pool starting from a stored candidate always ends with a
stored candidate. -/
theorem lastVerifying_isSome (x : X509) :
    ∀ (pool : List CertificateFile) (acc : Option CertificateFile),
      acc.isSome = true → (lastVerifying x acc pool).isSome = true := by
  intro pool
  induction pool with
  | nil => intro acc h; simpa [lastVerifying] using h
  | cons c rest ih =>
    intro acc h
    simp only [lastVerifying]
    split
    · exact ih (some c) rfl
    · exact ih acc h

/-- Starting from no stored candidate, the scan ends with none exactly when
no candidate verifies. -/
theorem lastVerifying_none_iff (x : X509) :
    ∀ (pool : List CertificateFile),
      lastVerifying x none pool = none ↔ noVerifier x pool := by
  intro pool
  induction pool with
  | nil => simp [lastVerifying, noVerifier]
  | cons c rest ih =>
    cases hv : verify x c.certificate.pubkey with
    | true =>
      rw [show lastVerifying x none (c :: rest) = lastVerifying x (some c) rest from by
        simp [lastVerifying, hv]]
      constructor
      · intro h
        have h2 := lastVerifying_isSome x rest (some c) rfl
        rw [h] at h2
        simp at h2
      · intro h
        have h2 := h c (List.mem_cons_self c rest)
        rw [hv] at h2
        cases h2
    | false =>
      rw [show lastVerifying x none (c :: rest) = lastVerifying x none rest from by
        simp [lastVerifying, hv]]
      rw [ih]
      unfold noVerifier
      constructor
      · intro h d hd
        rcases List.mem_cons.mp hd with rfl | hd
        · exact hv
        · exact h d hd
      · intro h d hd
        exact h d (List.mem_cons_of_mem c hd)

/-! Fuel monotonicity: a resolution that completes within some fuel bound
completes identically within every larger bound. -/

/-- Candidate scans are monotone in the behaviour of the recursive call. -/
theorem signerScan_mono (res1 res2 : CertificateFile → Res CertificateFile)
    (hres : ∀ c w, res1 c = .ok w → res2 c = .ok w) :
    ∀ (cands : List CertificateFile) (cert r : CertificateFile),
      signerScan res1 cert cands = .ok r → signerScan res2 cert cands = .ok r := by
  intro cands
  induction cands with
  | nil => intro cert r h; exact h
  | cons c rest ih =>
    intro cert r h
    simp only [signerScan] at h ⊢
    cases hc : certificate_to_signing_certificate cert.certificate c.certificate with
    | error e => rw [hc] at h; exact ih cert r h
    | ok u =>
      rw [hc] at h
      by_cases hsig : cert.certificate.sig = c.certificate.sig
      · rw [if_pos hsig] at h ⊢; exact h
      · rw [if_neg hsig] at h ⊢
        cases hr : res1 c with
        | error e => rw [hr] at h; cases h
        | ok w =>
          rw [hr] at h
          rw [hres c w hr]
          exact ih _ r h

/-- Issuer resolution is monotone in fuel. -/
theorem attach_chain_mono :
    ∀ (fuel1 fuel2 : Nat), fuel1 ≤ fuel2 →
      ∀ (cert : CertificateFile) (ps : List FileEntry) (r : CertificateFile),
        attach_signing_certificate_chain fuel1 cert ps = .ok r →
        attach_signing_certificate_chain fuel2 cert ps = .ok r := by
  intro fuel1
  induction fuel1 with
  | zero =>
    intro fuel2 _ cert ps r h
    simp [attach_signing_certificate_chain] at h
  | succ n ih =>
    intro fuel2 hle cert ps r h
    obtain ⟨m, rfl⟩ : ∃ m, fuel2 = m + 1 := ⟨fuel2 - 1, by omega⟩
    simp only [attach_signing_certificate_chain] at h ⊢
    exact signerScan_mono _ _ (fun c w hw => ih m (by omega) c ps w hw) _ cert r h

/-- The sequential map is monotone in the behaviour of its body. -/
theorem mapE_mono {α β : Type} (f1 f2 : α → Res β)
    (hf : ∀ a b, f1 a = .ok b → f2 a = .ok b) :
    ∀ (l : List α) (bs : List β), mapE f1 l = .ok bs → mapE f2 l = .ok bs := by
  intro l
  induction l with
  | nil => intro bs h; exact h
  | cons a rest ih =>
    intro bs h
    simp only [mapE] at h ⊢
    cases ha : f1 a with
    | error e => rw [ha] at h; cases h
    | ok b =>
      rw [ha] at h
      rw [hf a b ha]
      cases hrest : mapE f1 rest with
      | error e => rw [hrest] at h; cases h
      | ok bs2 =>
        rw [hrest] at h
        rw [ih bs2 hrest]
        exact h

/-- The sequential map respects pointwise equal bodies. -/
theorem mapE_congr {α β : Type} (f1 f2 : α → Res β) (hf : ∀ a, f1 a = f2 a) :
    ∀ (l : List α), mapE f1 l = mapE f2 l := by
  intro l
  induction l with
  | nil => rfl
  | cons a rest ih => simp only [mapE, hf a, ih]

/-- The sequential map transports a pointwise invariant. -/
theorem mapE_preserves {α β : Type} {P : α → Prop} {Q : β → Prop}
    (f : α → Res β) (hf : ∀ a b, P a → f a = .ok b → Q b) :
    ∀ (l : List α) (bs : List β), (∀ a ∈ l, P a) → mapE f l = .ok bs →
      ∀ b ∈ bs, Q b := by
  intro l
  induction l with
  | nil =>
    intro bs _ h
    simp only [mapE] at h
    cases h
    intro b hb
    cases hb
  | cons a rest ih =>
    intro bs hP h
    simp only [mapE] at h
    cases ha : f a with
    | error e => rw [ha] at h; cases h
    | ok b =>
      rw [ha] at h
      cases hrest : mapE f rest with
      | error e => rw [hrest] at h; cases h
      | ok bs2 =>
        rw [hrest] at h
        cases h
        intro d hd
        rcases List.mem_cons.mp hd with rfl | hd
        · exact hf a d (hP a (List.mem_cons_self a rest)) ha
        · exact ih bs2 (fun x hx => hP x (List.mem_cons_of_mem a hx)) hrest d hd

/-- Lineage resolution over all chains is monotone in fuel. -/
theorem attach_signing_mono (fuel1 fuel2 : Nat) (h : fuel1 ≤ fuel2)
    (chains : List Chain) (ps : List FileEntry) (r : List Chain) :
    attach_signing_certificates fuel1 chains ps = .ok r →
    attach_signing_certificates fuel2 chains ps = .ok r := by
  unfold attach_signing_certificates
  refine mapE_mono _ _ (fun ch b hb => ?_) chains r
  cases hm : mapE (fun c => attach_signing_certificate_chain fuel1 c ps) ch.certificates with
  | error e => rw [hm] at hb; cases hb
  | ok certs =>
    rw [hm] at hb
    rw [mapE_mono _ _ (fun c w hw => attach_chain_mono fuel1 fuel2 h c ps w hw)
          ch.certificates certs hm]
    exact hb

/-- Chain construction is monotone in fuel. -/
theorem build_mono (fuel1 fuel2 : Nat) (h : fuel1 ≤ fuel2) (ps : List FileEntry)
    (r : Except String (List Chain)) :
    build fuel1 ps = .ok r → build fuel2 ps = .ok r := by
  intro hb
  unfold build at hb ⊢
  cases hA : attach_certificate_signing_requests (initChains ps) ps with
  | error e => simp [hA] at hb
  | ok chains1 =>
    simp only [hA] at hb ⊢
    cases hB : attach_certificates chains1 ps with
    | error e => simp [hB] at hb
    | ok chains2 =>
      simp only [hB] at hb ⊢
      cases hC : attach_signing_certificates fuel1 chains2 ps with
      | error e => simp [hC] at hb
      | ok chains3 =>
        simp only [hC] at hb
        simp only [attach_signing_mono fuel1 fuel2 h chains2 ps chains3 hC]
        exact hb

/-! Characterizations of the request- and certificate-attachment scans. -/

/-- A completed request scan attaches exactly the first matching request
(keeping a previously stored one only when no file matches) and leaves
every other chain field untouched. -/
theorem requestScan_spec (key : PrivateKeyFile) :
    ∀ (ps : List FileEntry) (ch r : Chain), ch.key = some key →
      requestScan ch ps = .ok r →
      r.request = (firstMatchingRequest key ps).or ch.request ∧
      r.key = ch.key ∧ r.certificates = ch.certificates ∧ r.name = ch.name := by
  intro ps
  induction ps with
  | nil =>
    intro ch r _ h
    cases h
    exact ⟨rfl, rfl, rfl, rfl⟩
  | cons f rest ih =>
    intro ch r hk h
    cases hread : f.read with
    | none =>
      rw [show requestScan ch (f :: rest) = requestScan ch rest from by
        simp only [requestScan, hread]] at h
      rw [show firstMatchingRequest key (f :: rest) = firstMatchingRequest key rest from by
        simp only [firstMatchingRequest, hread]]
      exact ih ch r hk h
    | some contents =>
      cases hreq : contents.asReq with
      | none =>
        rw [show requestScan ch (f :: rest) = requestScan ch rest from by
          simp only [requestScan, hread, hreq]] at h
        rw [show firstMatchingRequest key (f :: rest) = firstMatchingRequest key rest from by
          simp only [firstMatchingRequest, hread, hreq]]
        exact ih ch r hk h
      | some req =>
        cases hrsa : req.to_rsa with
        | none =>
          rw [show requestScan ch (f :: rest) = Except.error Abort.panicked from by
            simp only [requestScan, hread, hreq, hk, hrsa]] at h
          cases h
        | some rsa =>
          by_cases heq : key.rsa.n = rsa.n
          · rw [show requestScan ch (f :: rest) =
                Except.ok { ch with request := some { path := f.path, request := req } } from by
              simp only [requestScan, hread, hreq, hk, hrsa]
              rw [show private_to_public key.rsa rsa = Except.ok () from
                (private_to_public_ok_iff key.rsa rsa).mpr heq]] at h
            cases h
            rw [show firstMatchingRequest key (f :: rest) =
                some { path := f.path, request := req } from by
              simp only [firstMatchingRequest, hread, hreq, hrsa]
              rw [if_pos heq]]
            exact ⟨rfl, rfl, rfl, rfl⟩
          · rw [show requestScan ch (f :: rest) = requestScan ch rest from by
              simp only [requestScan, hread, hreq, hk, hrsa]
              rw [show private_to_public key.rsa rsa = Except.error "Key file mismatch" from by
                unfold private_to_public; rw [if_pos heq]]] at h
            rw [show firstMatchingRequest key (f :: rest) = firstMatchingRequest key rest from by
              simp only [firstMatchingRequest, hread, hreq, hrsa]
              rw [if_neg heq]]
            exact ih ch r hk h

/-- A completed certificate scan appends exactly the pool certificates
whose modulus matches the key, in pool order, and leaves every other chain
field untouched. -/
theorem certScan_spec (key : PrivateKeyFile) :
    ∀ (pool : List CertificateFile) (ch r : Chain), ch.key = some key →
      certScan ch pool = .ok r →
      r.certificates = ch.certificates ++ pool.filter (certMatchesKey key) ∧
      r.key = ch.key ∧ r.request = ch.request ∧ r.name = ch.name := by
  intro pool
  induction pool with
  | nil =>
    intro ch r _ h
    cases h
    exact ⟨by simp, rfl, rfl, rfl⟩
  | cons c rest ih =>
    intro ch r hk h
    cases hrsa : c.certificate.to_rsa with
    | none =>
      rw [show certScan ch (c :: rest) = Except.error Abort.panicked from by
        simp only [certScan, hk, hrsa]] at h
      cases h
    | some rsa =>
      by_cases heq : key.rsa.n = rsa.n
      · rw [show certScan ch (c :: rest) =
            certScan { ch with certificates := ch.certificates ++ [c] } rest from by
          simp only [certScan, hk, hrsa]
          rw [show private_to_public key.rsa rsa = Except.ok () from
            (private_to_public_ok_iff key.rsa rsa).mpr heq]] at h
        obtain ⟨h1, h2, h3, h4⟩ := ih { ch with certificates := ch.certificates ++ [c] } r hk h
        refine ⟨?_, h2, h3, h4⟩
        rw [h1]
        have hmatch : certMatchesKey key c = true := by
          unfold certMatchesKey
          rw [hrsa]
          exact beq_iff_eq.mpr heq
        simp [List.filter_cons, hmatch]
      · rw [show certScan ch (c :: rest) = certScan ch rest from by
          simp only [certScan, hk, hrsa]
          rw [show private_to_public key.rsa rsa = Except.error "Key file mismatch" from by
            unfold private_to_public; rw [if_pos heq]]] at h
        obtain ⟨h1, h2, h3, h4⟩ := ih ch r hk h
        refine ⟨?_, h2, h3, h4⟩
        rw [h1]
        have hmatch : certMatchesKey key c = false := by
          unfold certMatchesKey
          rw [hrsa]
          simp [heq]
        simp [List.filter_cons, hmatch]

/-- Every chain created by the initialization phase owns a key. -/
theorem initChains_key :
    ∀ (ps : List FileEntry) (ch : Chain), ch ∈ initChains ps →
      ch.key.isSome = true := by
  intro ps
  induction ps with
  | nil => intro ch h; cases h
  | cons f rest ih =>
    intro ch h
    cases hread : f.read with
    | none =>
      rw [show initChains (f :: rest) = initChains rest from by
        simp only [initChains, hread]] at h
      exact ih ch h
    | some contents =>
      cases hkey : contents.asKey with
      | none =>
        rw [show initChains (f :: rest) = initChains rest from by
          simp only [initChains, hread, hkey]] at h
        exact ih ch h
      | some rsa =>
        rw [show initChains (f :: rest) =
            { name := none, key := some { path := f.path, rsa := rsa },
              request := none, certificates := [] } :: initChains rest from by
          simp only [initChains, hread, hkey]] at h
        rcases List.mem_cons.mp h with rfl | h
        · rfl
        · exact ih ch h

/-- A completed request scan never changes the chain's key (also for a
chain without one). -/
theorem requestScan_key :
    ∀ (ps : List FileEntry) (ch r : Chain), requestScan ch ps = .ok r →
      r.key = ch.key := by
  intro ps
  induction ps with
  | nil => intro ch r h; cases h; rfl
  | cons f rest ih =>
    intro ch r h
    cases hread : f.read with
    | none =>
      rw [show requestScan ch (f :: rest) = requestScan ch rest from by
        simp only [requestScan, hread]] at h
      exact ih ch r h
    | some contents =>
      cases hreq : contents.asReq with
      | none =>
        rw [show requestScan ch (f :: rest) = requestScan ch rest from by
          simp only [requestScan, hread, hreq]] at h
        exact ih ch r h
      | some req =>
        cases hk : ch.key with
        | none =>
          rw [show requestScan ch (f :: rest) = requestScan ch rest from by
            simp only [requestScan, hread, hreq, hk]] at h
          exact (ih ch r h).trans hk
        | some key =>
          cases hrsa : req.to_rsa with
          | none =>
            rw [show requestScan ch (f :: rest) = Except.error Abort.panicked from by
              simp only [requestScan, hread, hreq, hk, hrsa]] at h
            cases h
          | some rsa =>
            cases hp : private_to_public key.rsa rsa with
            | ok u =>
              rw [show requestScan ch (f :: rest) =
                  Except.ok { ch with request := some { path := f.path, request := req } } from by
                simp only [requestScan, hread, hreq, hk, hrsa, hp]] at h
              cases h
              exact hk
            | error e =>
              rw [show requestScan ch (f :: rest) = requestScan ch rest from by
                simp only [requestScan, hread, hreq, hk, hrsa, hp]] at h
              exact (ih ch r h).trans hk

/-- A completed certificate scan never changes the chain's key. -/
theorem certScan_key :
    ∀ (pool : List CertificateFile) (ch r : Chain), certScan ch pool = .ok r →
      r.key = ch.key := by
  intro pool
  induction pool with
  | nil => intro ch r h; cases h; rfl
  | cons c rest ih =>
    intro ch r h
    cases hk : ch.key with
    | none =>
      rw [show certScan ch (c :: rest) = certScan ch rest from by
        simp only [certScan, hk]] at h
      exact (ih ch r h).trans hk
    | some key =>
      cases hrsa : c.certificate.to_rsa with
      | none =>
        rw [show certScan ch (c :: rest) = Except.error Abort.panicked from by
          simp only [certScan, hk, hrsa]] at h
        cases h
      | some rsa =>
        cases hp : private_to_public key.rsa rsa with
        | ok u =>
          rw [show certScan ch (c :: rest) =
              certScan { ch with certificates := ch.certificates ++ [c] } rest from by
            simp only [certScan, hk, hrsa, hp]] at h
          exact (ih _ r h).trans hk
        | error e =>
          rw [show certScan ch (c :: rest) = certScan ch rest from by
            simp only [certScan, hk, hrsa, hp]] at h
          exact (ih ch r h).trans hk

/-- Whenever chain construction returns, it returns the success variant of
the Rust result, and every returned chain owns a key. -/
theorem build_keys (fuel : Nat) (ps : List FileEntry)
    (r : Except String (List Chain)) (h : build fuel ps = .ok r) :
    ∃ cs, r = .ok cs ∧ ∀ ch ∈ cs, ch.key.isSome = true := by
  unfold build at h
  cases hA : attach_certificate_signing_requests (initChains ps) ps with
  | error e => simp [hA] at h
  | ok chains1 =>
    simp only [hA] at h
    cases hB : attach_certificates chains1 ps with
    | error e => simp [hB] at h
    | ok chains2 =>
      simp only [hB] at h
      cases hC : attach_signing_certificates fuel chains2 ps with
      | error e => simp [hC] at h
      | ok chains3 =>
        simp only [hC] at h
        cases h
        refine ⟨chains3, rfl, ?_⟩
        have h1 : ∀ ch ∈ chains1, ch.key.isSome = true := by
          refine mapE_preserves _ ?_ (initChains ps) chains1 (initChains_key ps) hA
          intro a b ha hb
          rw [requestScan_key ps a b hb]
          exact ha
        have h2 : ∀ ch ∈ chains2, ch.key.isSome = true := by
          refine mapE_preserves _ ?_ chains1 chains2 h1 hB
          intro a b ha hb
          rw [certScan_key (find_certificates ps) a b hb]
          exact ha
        refine mapE_preserves _ ?_ chains2 chains3 h2 hC
        intro a b ha hb
        cases hm : mapE (fun c => attach_signing_certificate_chain fuel c ps)
            a.certificates with
        | error e => rw [hm] at hb; cases hb
        | ok certs =>
          rw [hm] at hb
          cases hb
          exact ha

/-! Junk files (unreadable, or failing all three parses) contribute nothing
to any phase. -/

/-- Removing a junk file does not change the created chains. -/
theorem initChains_junk (f : FileEntry) (hf : junkFile f) :
    ∀ (ps1 ps2 : List FileEntry),
      initChains (ps1 ++ f :: ps2) = initChains (ps1 ++ ps2) := by
  intro ps1
  induction ps1 with
  | nil =>
    intro ps2
    rcases hf with h | h
    · simp only [List.nil_append, initChains, h]
    · simp only [List.nil_append, initChains, h]
  | cons p ps1 ih =>
    intro ps2
    simp only [List.cons_append, initChains, List.append_eq, ih ps2]

/-- Removing a junk file does not change the request scan. -/
theorem requestScan_junk (f : FileEntry) (hf : junkFile f) :
    ∀ (ps1 : List FileEntry) (ch : Chain) (ps2 : List FileEntry),
      requestScan ch (ps1 ++ f :: ps2) = requestScan ch (ps1 ++ ps2) := by
  intro ps1
  induction ps1 with
  | nil =>
    intro ch ps2
    rcases hf with h | h
    · simp only [List.nil_append, requestScan, h]
    · simp only [List.nil_append, requestScan, h]
  | cons p ps1 ih =>
    intro ch ps2
    simp only [List.cons_append, requestScan, List.append_eq, ih]

/-- Removing a junk file does not change the certificate pool. -/
theorem find_certificates_junk (f : FileEntry) (hf : junkFile f) :
    ∀ (ps1 ps2 : List FileEntry),
      find_certificates (ps1 ++ f :: ps2) = find_certificates (ps1 ++ ps2) := by
  intro ps1
  induction ps1 with
  | nil =>
    intro ps2
    rcases hf with h | h
    · simp only [List.nil_append, find_certificates, h]
    · simp only [List.nil_append, find_certificates, h]
  | cons p ps1 ih =>
    intro ps2
    simp only [List.cons_append, find_certificates, List.append_eq, ih ps2]

/-- Candidate scans respect pointwise equal recursive calls. -/
theorem signerScan_congr (res1 res2 : CertificateFile → Res CertificateFile)
    (h : ∀ c, res1 c = res2 c) :
    ∀ (cands : List CertificateFile) (cert : CertificateFile),
      signerScan res1 cert cands = signerScan res2 cert cands := by
  intro cands
  induction cands with
  | nil => intro cert; rfl
  | cons c rest ih => intro cert; simp only [signerScan, h, ih]

/-- Issuer resolution depends on the path list only through the certificate
pool it yields. -/
theorem attach_chain_congr (ps1 ps2 : List FileEntry)
    (hpool : find_certificates ps1 = find_certificates ps2) :
    ∀ (fuel : Nat) (cert : CertificateFile),
      attach_signing_certificate_chain fuel cert ps1 =
      attach_signing_certificate_chain fuel cert ps2 := by
  intro fuel
  induction fuel with
  | zero => intro cert; rfl
  | succ n ih =>
    intro cert
    simp only [attach_signing_certificate_chain, hpool]
    exact signerScan_congr _ _ ih _ cert

/-- Removing a junk file does not change the result of chain construction. -/
theorem build_junk (f : FileEntry) (hf : junkFile f) (fuel : Nat)
    (ps1 ps2 : List FileEntry) :
    build fuel (ps1 ++ f :: ps2) = build fuel (ps1 ++ ps2) := by
  have hreq : ∀ chains, attach_certificate_signing_requests chains (ps1 ++ f :: ps2) =
      attach_certificate_signing_requests chains (ps1 ++ ps2) := by
    intro chains
    exact mapE_congr _ _ (fun ch => requestScan_junk f hf ps1 ch ps2) chains
  have hfind := find_certificates_junk f hf ps1 ps2
  have hcerts : ∀ chains, attach_certificates chains (ps1 ++ f :: ps2) =
      attach_certificates chains (ps1 ++ ps2) := by
    intro chains
    exact mapE_congr _ _ (fun ch => by unfold certScan; rw [hfind]) chains
  have hsign : ∀ chains, attach_signing_certificates fuel chains (ps1 ++ f :: ps2) =
      attach_signing_certificates fuel chains (ps1 ++ ps2) := by
    intro chains
    refine mapE_congr _ _ (fun ch => ?_) chains
    rw [mapE_congr _ _ (fun c => attach_chain_congr _ _ hfind fuel c) ch.certificates]
  unfold build
  rw [initChains_junk f hf ps1 ps2]
  simp only [hreq, hcerts, hsign]

/-! Non-termination of issuer resolution on a mutual-verification cycle. -/

/-- On the mutual-verification pool, every finite fuel bound is exhausted,
whichever of the two certificates resolution starts from. -/
theorem c4_fuel_all :
    ∀ fuel : Nat,
      attach_signing_certificate_chain fuel c4Arec c4paths = .error .fuelOut ∧
      attach_signing_certificate_chain fuel c4Brec c4paths = .error .fuelOut := by
  intro fuel
  induction fuel with
  | zero => exact ⟨rfl, rfl⟩
  | succ n ih =>
    refine ⟨?_, ?_⟩
    · calc attach_signing_certificate_chain (n + 1) c4Arec c4paths
          = (match attach_signing_certificate_chain n c4Brec c4paths with
             | .error e => .error e
             | .ok _ =>
               signerScan (fun c => attach_signing_certificate_chain n c c4paths)
                 (c4Arec.setSigner c4Brec) []) := rfl
        _ = .error .fuelOut := by rw [ih.2]
    · calc attach_signing_certificate_chain (n + 1) c4Brec c4paths
          = (match attach_signing_certificate_chain n c4Arec c4paths with
             | .error e => .error e
             | .ok _ =>
               signerScan (fun c => attach_signing_certificate_chain n c c4paths)
                 (c4Brec.setSigner c4Arec) [c4Brec]) := rfl
        _ = .error .fuelOut := by rw [ih.1]

/-! The claims. -/

/-- C1: the claim expects the leaf's lineage to be `[intermediate, root]`
with the root marked self-signed; the code stores the clone of the
intermediate before the recursive call, so on the three-certificate
scenario the walk yields only `[intermediate]`, whose record carries no
signer and is not marked self-signed — the root never appears. -/
theorem c1_lineage_eval :
    build 10 c1paths = .ok (.ok c1chains) ∧
    signing_certificate_chain leafOut = [CertificateFile.mk "i" interX none false] ∧
    (CertificateFile.mk "i" interX none false).signing_certificate = none ∧
    (CertificateFile.mk "i" interX none false).self_signed = false :=
  ⟨rfl, rfl, rfl, rfl⟩

/-- C2 counterexample: on a pool where a distinct certificate verifies the
crafted certificate before its own byte-identical self-verification, the
produced record has `self_signed = true` AND a non-`none` issuer,
contradicting the claimed exclusion. -/
theorem c2_counterexample :
    build 10 c2paths =
      .ok (.ok [{ name := none, key := some { path := "k2", rsa := ⟨10⟩ },
                  request := none, certificates := [c2rec] }]) ∧
    c2rec.self_signed = true ∧
    c2rec.signing_certificate = some (.mk "x" c2XX none false) :=
  ⟨rfl, rfl, rfl⟩

/-- C2 amended: for a record that starts with no stored signer, a completed
resolution satisfies: if it ends not-self-signed, the issuer is `none`
exactly when no pool candidate verifies the signature; and an issuer of
`none` implies self-signed or no verifying candidate.  (The original
exclusion — never self-signed with a non-`none` issuer — fails when a
verifying non-byte-equal candidate precedes the byte-equal one.) -/
theorem c2_issuer_none_iff (fuel : Nat) (cert r : CertificateFile)
    (ps : List FileEntry) (hsc : cert.signing_certificate = none)
    (h : attach_signing_certificate_chain fuel cert ps = .ok r) :
    (r.self_signed = false →
      (r.signing_certificate = none ↔
        noVerifier cert.certificate (find_certificates ps))) ∧
    (r.signing_certificate = none →
      r.self_signed = true ∨ noVerifier cert.certificate (find_certificates ps)) := by
  cases fuel with
  | zero => simp [attach_signing_certificate_chain] at h
  | succ n =>
    simp only [attach_signing_certificate_chain] at h
    obtain ⟨h1, h2, h3, h4, h5⟩ := signerScan_spec _ _ cert r h
    constructor
    · intro hss
      rw [h4 hss, hsc]
      exact lastVerifying_none_iff cert.certificate (find_certificates ps)
    · intro hn
      rcases h5 hn with h5 | ⟨_, hnv⟩
      · exact Or.inl h5
      · exact Or.inr hnv

/-- Witness for C2 amended, at the three-certificate scenario's leaf. -/
theorem c2_issuer_none_iff_witness :
    (CertificateFile.mk "l" leafX none false).signing_certificate = none ∧
    attach_signing_certificate_chain 10 (CertificateFile.mk "l" leafX none false)
      c1paths = .ok leafOut ∧
    ((leafOut.self_signed = false →
       (leafOut.signing_certificate = none ↔
         noVerifier (CertificateFile.mk "l" leafX none false).certificate
           (find_certificates c1paths))) ∧
     (leafOut.signing_certificate = none →
       leafOut.self_signed = true ∨
         noVerifier (CertificateFile.mk "l" leafX none false).certificate
           (find_certificates c1paths))) :=
  ⟨rfl, rfl, c2_issuer_none_iff 10 (CertificateFile.mk "l" leafX none false)
    leafOut c1paths rfl rfl⟩

/-- C3 counterexample: with the issuer certificate present at paths "x1"
and "x2" (in that scan order), the engine attaches the record at "x2" —
the LAST verifying candidate — although the candidate at "x1" verifies
too, contradicting first-match-wins. -/
theorem c3_counterexample :
    build 10 c3paths =
      .ok (.ok [{ name := none, key := some { path := "k3", rsa := ⟨10⟩ },
                  request := none,
                  certificates :=
                    [.mk "c3" c3CX (some (.mk "x2" c3XX none false)) false] }]) ∧
    find_certificates c3paths =
      [.mk "x1" c3XX none false, .mk "x2" c3XX none false, .mk "c3" c3CX none false] ∧
    verify c3CX (CertificateFile.mk "x1" c3XX none false).certificate.pubkey = true ∧
    (CertificateFile.mk "c3" c3CX (some (.mk "x2" c3XX none false)) false).signing_certificate =
      some (.mk "x2" c3XX none false) :=
  ⟨rfl, rfl, rfl, rfl⟩

/-- C3 amended: the scan does not stop at the first verifying candidate;
each verifying (non-byte-equal) candidate overwrites the stored issuer, so
a resolution that ends not-self-signed stores exactly the LAST verifying
candidate in scan order. -/
theorem c3_last_match_wins (fuel : Nat) (cert r : CertificateFile)
    (ps : List FileEntry)
    (h : attach_signing_certificate_chain fuel cert ps = .ok r)
    (hss : r.self_signed = false) :
    r.signing_certificate =
      lastVerifying cert.certificate cert.signing_certificate
        (find_certificates ps) := by
  cases fuel with
  | zero => simp [attach_signing_certificate_chain] at h
  | succ n =>
    simp only [attach_signing_certificate_chain] at h
    exact (signerScan_spec _ _ cert r h).2.2.2.1 hss

/-- Witness for C3 amended, at the duplicate-issuer scenario. -/
theorem c3_last_match_wins_witness :
    attach_signing_certificate_chain 10 (CertificateFile.mk "c3" c3CX none false)
      c3paths = .ok (.mk "c3" c3CX (some (.mk "x2" c3XX none false)) false) ∧
    (CertificateFile.mk "c3" c3CX (some (.mk "x2" c3XX none false)) false).self_signed
      = false ∧
    (CertificateFile.mk "c3" c3CX (some (.mk "x2" c3XX none false)) false).signing_certificate =
      lastVerifying (CertificateFile.mk "c3" c3CX none false).certificate
        (CertificateFile.mk "c3" c3CX none false).signing_certificate
        (find_certificates c3paths) :=
  ⟨rfl, rfl, c3_last_match_wins 10 (CertificateFile.mk "c3" c3CX none false)
    (.mk "c3" c3CX (some (.mk "x2" c3XX none false)) false) c3paths rfl rfl⟩

/-- C4: on the pool of two distinct non-self-signed certificates that
mutually verify each other's signatures, issuer resolution exhausts every
finite fuel bound — the recursion never terminates, contradicting the
claimed termination on pathological inputs. -/
theorem c4_divergence :
    ∀ fuel : Nat,
      attach_signing_certificate_chain fuel c4Arec c4paths = .error .fuelOut :=
  fun fuel => (c4_fuel_all fuel).1

/-- C5 counterexample: one valid private key plus one file that parses as
a certificate request with a non-RSA public key makes the engine panic
(`to_rsa().unwrap()`) — build does not return normally.  The panic occurs
in the request-attachment phase, before any fuel is consumed, so the fuel
bound is irrelevant. -/
theorem c5_counterexample :
    build 5 c5paths = .error .panicked :=
  rfl

/-- C5 amended: a file that is unreadable or fails all three parses
contributes nothing — removing it from the path list leaves the result of
chain construction unchanged (the claim's further case, an artifact that
parses but is not RSA, instead panics the engine). -/
theorem c5_junk_contributes_nothing (fuel : Nat) (ps1 ps2 : List FileEntry)
    (f : FileEntry) (hf : junkFile f) :
    build fuel (ps1 ++ f :: ps2) = build fuel (ps1 ++ ps2) :=
  build_junk f hf fuel ps1 ps2

/-- Witness for C5 amended: dropping a readable-but-unparseable file
between the key and the leaf certificate changes nothing. -/
theorem c5_junk_contributes_nothing_witness :
    junkFile c5junk ∧ build 5 [fk, c5junk, fl] = build 5 [fk, fl] :=
  ⟨Or.inr rfl, c5_junk_contributes_nothing 5 [fk] [fl] c5junk (Or.inr rfl)⟩

/-- C6: the key match test succeeds exactly when the private key's RSA
modulus equals the holder's public modulus; any difference (in the model,
any differing value) fails it. -/
theorem c6_modulus_match :
    ∀ (kp : RsaPriv) (kq : RsaPub),
      private_to_public kp kq = .ok () ↔ kp.n = kq.n :=
  fun kp kq => private_to_public_ok_iff kp kq

/-- C7: a completed request scan attaches exactly the first request in
scan order whose public key matches the chain's key (keeping any
previously stored request only when nothing matches), and touches no
other chain field — so a later match never replaces it. -/
theorem c7_first_request (ps : List FileEntry) (ch r : Chain)
    (key : PrivateKeyFile) (hk : ch.key = some key)
    (h : requestScan ch ps = .ok r) :
    r.request = (firstMatchingRequest key ps).or ch.request ∧
    r.key = ch.key ∧ r.certificates = ch.certificates :=
  ⟨(requestScan_spec key ps ch r hk h).1,
   (requestScan_spec key ps ch r hk h).2.1,
   (requestScan_spec key ps ch r hk h).2.2.1⟩

/-- Witness for C7: with matching requests at "q1" and "q2", the one at
"q1" is attached. -/
theorem c7_first_request_witness :
    c7chain.key = some { path := "k", rsa := ⟨10⟩ } ∧
    requestScan c7chain c7paths = .ok c7out ∧
    (c7out.request =
       (firstMatchingRequest { path := "k", rsa := ⟨10⟩ } c7paths).or c7chain.request ∧
     c7out.key = c7chain.key ∧ c7out.certificates = c7chain.certificates) :=
  ⟨rfl, rfl, c7_first_request c7paths c7chain c7out { path := "k", rsa := ⟨10⟩ } rfl rfl⟩

/-- C8: a completed certificate scan appends ALL pool certificates whose
public key matches the chain's key — filtered from the pool in discovery
order — and touches no other chain field. -/
theorem c8_all_matching_certificates (ps : List FileEntry) (ch r : Chain)
    (key : PrivateKeyFile) (hk : ch.key = some key)
    (h : certScan ch (find_certificates ps) = .ok r) :
    r.certificates =
      ch.certificates ++ (find_certificates ps).filter (certMatchesKey key) ∧
    r.key = ch.key ∧ r.request = ch.request :=
  ⟨(certScan_spec key (find_certificates ps) ch r hk h).1,
   (certScan_spec key (find_certificates ps) ch r hk h).2.1,
   (certScan_spec key (find_certificates ps) ch r hk h).2.2.1⟩

/-- Witness for C8: both copies of the matching certificate are appended,
in path order; the non-matching one is not. -/
theorem c8_all_matching_certificates_witness :
    c7chain.key = some { path := "k", rsa := ⟨10⟩ } ∧
    certScan c7chain (find_certificates c8paths) = .ok c8out ∧
    (c8out.certificates =
       c7chain.certificates ++
         (find_certificates c8paths).filter (certMatchesKey { path := "k", rsa := ⟨10⟩ }) ∧
     c8out.key = c7chain.key ∧ c8out.request = c7chain.request) :=
  ⟨rfl, rfl, c8_all_matching_certificates c8paths c7chain c8out
    { path := "k", rsa := ⟨10⟩ } rfl rfl⟩

/-- C9: chain construction is deterministic on a fixed input list — two
completed runs (whatever their fuel bounds) return equal chain
sequences. -/
theorem c9_deterministic (fuel1 fuel2 : Nat) (ps : List FileEntry)
    (cs1 cs2 : List Chain)
    (h1 : build fuel1 ps = .ok (.ok cs1))
    (h2 : build fuel2 ps = .ok (.ok cs2)) :
    cs1 = cs2 := by
  rcases Nat.le_total fuel1 fuel2 with hle | hle
  · have h3 := build_mono fuel1 fuel2 hle ps _ h1
    rw [h2] at h3
    exact (Except.ok.inj (Except.ok.inj h3)).symm
  · have h3 := build_mono fuel2 fuel1 hle ps _ h2
    rw [h1] at h3
    exact Except.ok.inj (Except.ok.inj h3)

/-- Witness for C9: two runs with different fuel bounds on the
three-certificate scenario agree. -/
theorem c9_deterministic_witness :
    build 10 c1paths = .ok (.ok c1chains) ∧
    build 12 c1paths = .ok (.ok c1chains) ∧
    c1chains = c1chains :=
  ⟨rfl, rfl, c9_deterministic 10 12 c1paths c1chains c1chains rfl rfl⟩

/-- C10: whenever chain construction returns, the Rust-level result is the
success variant, and every returned chain has its key set. -/
theorem c10_success_variant (fuel : Nat) (ps : List FileEntry)
    (r : Except String (List Chain)) (h : build fuel ps = .ok r) :
    ∃ cs, r = .ok cs ∧ ∀ ch ∈ cs, ch.key.isSome = true :=
  build_keys fuel ps r h

/-- Witness for C10, at the three-certificate scenario. -/
theorem c10_success_variant_witness :
    build 10 c1paths = .ok (.ok c1chains) ∧
    ∃ cs, (Except.ok c1chains : Except String (List Chain)) = .ok cs ∧
      ∀ ch ∈ cs, ch.key.isSome = true :=
  ⟨rfl, c10_success_variant 10 c1paths (.ok c1chains) rfl⟩

end SSLChains
